import Mathlib

/-!
Verification development for the HumOS AGI FHIR client layer.

The repository contains two near-duplicate JavaScript FHIR clients:
`StandardFhirClient` (standard-fhir-client.js) and `SimpleFhirClient`
(simple-fhir-client.js).  This file gives a shallow embedding of the parts
of those clients that the specification talks about — query-string
construction, the JWT client-assertion authentication flow with its
endpoint-probe loop, client construction and configuration fallback, and
the request paths issued by each operation — and proves or refutes the
specification's claims about them.

JavaScript values that matter to the translated code (strings, numbers,
booleans, `null`, `undefined`) are modelled by the inductive `JSVal`;
JavaScript objects used as parameter maps are modelled as insertion-ordered
association lists.  (The exotic ECMAScript ordering of integer-like keys is
not modelled; FHIR search-parameter names are never integer-like.)
-/

/-- A JavaScript scalar value as used by the client code. -/
inductive JSVal where
  | str (s : String)
  | num (n : Int)
  | bool (b : Bool)
  | null
  | undefined
deriving Repr, DecidableEq

/-- JavaScript truthiness for the modelled values. -/
def jsTruthy : JSVal → Bool
  | .str s => !s.isEmpty
  | .num n => n != 0
  | .bool b => b
  | .null => false
  | .undefined => false

/-- JavaScript `String(v)` coercion for the modelled values. -/
def jsToString : JSVal → String
  | .str s => s
  | .num n => toString n
  | .bool b => if b then "true" else "false"
  | .null => "null"
  | .undefined => "undefined"

/-- JavaScript `a || b` on the modelled values. -/
def jsOr (a b : JSVal) : JSVal :=
  if jsTruthy a then a else b

/-- A JavaScript object used as a parameter map: insertion-ordered key/value list. -/
abbrev Params := List (String × JSVal)

/-- First entry with the given key, if any (property lookup on an object). -/
def objLookup : Params → String → Option JSVal
  | [], _ => none
  | kv :: rest, k => if kv.1 = k then some kv.2 else objLookup rest k

/-- JavaScript property access `obj[k]`: a missing property reads as `undefined`. -/
def objGet (params : Params) (k : String) : JSVal :=
  (objLookup params k).getD JSVal.undefined

/-- The object `{...params, k: v}`: an existing key keeps its position but its
value is overwritten; a new key is appended at the end.  This is ECMAScript
spread-then-assign semantics, used by the `getPatient*` convenience methods. -/
def objSet (params : Params) (k : String) (v : JSVal) : Params :=
  if List.any params (fun kv => kv.1 = k) then
    List.map (fun kv => if kv.1 = k then (kv.1, v) else kv) params
  else params ++ [(k, v)]

/-- `value !== undefined && value !== null`, the filter used by
`StandardFhirClient.formatQueryString`. -/
def definedVal : JSVal → Bool
  | .null => false
  | .undefined => false
  | _ => true

/-- The parameter map with `undefined`/`null`-valued entries removed. -/
def dropUndefinedNull (params : Params) : Params :=
  List.filter (fun kv => definedVal kv.2) params

/-- Hexadecimal digit (uppercase), as produced by `encodeURIComponent`. -/
def hexDigitChar (n : Nat) : Char :=
  if n < 10 then Char.ofNat (48 + n) else Char.ofNat (55 + n)

/-- A byte rendered as a `%XY` escape. -/
def byteToPercentHex (b : Nat) : String :=
  String.mk [Char.ofNat 37, hexDigitChar (b / 16), hexDigitChar (b % 16)]

/-- UTF-8 bytes of a Unicode code point. -/
def utf8Bytes (n : Nat) : List Nat :=
  if n < 128 then [n]
  else if n < 2048 then [192 ||| (n >>> 6), 128 ||| (n &&& 63)]
  else if n < 65536 then
    [224 ||| (n >>> 12), 128 ||| ((n >>> 6) &&& 63), 128 ||| (n &&& 63)]
  else
    [240 ||| (n >>> 18), 128 ||| ((n >>> 12) &&& 63),
     128 ||| ((n >>> 6) &&& 63), 128 ||| (n &&& 63)]

/-- Characters `encodeURIComponent` leaves unescaped:
ASCII alphanumerics and `- _ . ! ~ * ' ( )`. -/
def uriUnreservedChar (c : Char) : Bool :=
  c.isAlphanum || List.contains [Char.ofNat 45, Char.ofNat 95, Char.ofNat 46,
    Char.ofNat 33, Char.ofNat 126, Char.ofNat 42, Char.ofNat 39,
    Char.ofNat 40, Char.ofNat 41] c

/-- ECMAScript `encodeURIComponent`. -/
def encodeURIComponent (s : String) : String :=
  String.join (List.map (fun c =>
    if uriUnreservedChar c then String.singleton c
    else String.join (List.map byteToPercentHex (utf8Bytes c.toNat))) s.data)

/-- Characters the `application/x-www-form-urlencoded` serializer
(`URLSearchParams.toString`) leaves unescaped: ASCII alphanumerics and `* - . _`. -/
def formUnreservedChar (c : Char) : Bool :=
  c.isAlphanum || List.contains [Char.ofNat 42, Char.ofNat 45, Char.ofNat 46,
    Char.ofNat 95] c

/-- `application/x-www-form-urlencoded` escaping of one component, as done by
`URLSearchParams.toString` (space becomes `+`). -/
def urlSearchEncode (s : String) : String :=
  String.join (List.map (fun c =>
    if c = Char.ofNat 32 then "+"
    else if formUnreservedChar c then String.singleton c
    else String.join (List.map byteToPercentHex (utf8Bytes c.toNat))) s.data)

/-- One `k=v` fragment of `StandardFhirClient.formatQueryString`, or `none` for a
dropped (`undefined`/`null`-valued) entry. -/
def queryPart (kv : String × JSVal) : Option String :=
  if definedVal kv.2 then
    some (encodeURIComponent kv.1 ++ "=" ++ encodeURIComponent (jsToString kv.2))
  else none

/-- `StandardFhirClient.formatQueryString` (standard-fhir-client.js lines 276-289):
empty map gives the empty string; otherwise the defined-valued entries are
percent-encoded as `k=v`, joined with `&`, and prefixed with `?` when any remain. -/
def formatQueryString (params : Params) : String :=
  if List.isEmpty params then ""
  else
    let queryParts := List.filterMap queryPart params
    if List.isEmpty queryParts then ""
    else "?" ++ String.intercalate "&" queryParts

/-- The URL built by `SimpleFhirClient.request` (simple-fhir-client.js lines
373-395): when the parameter object has at least one key, every entry — with no
`undefined`/`null` filtering — is appended to a `URLSearchParams`, which coerces
the value with `String(...)` and form-urlencodes both components. -/
def simpleRequestUrl (path : String) (params : Params) : String :=
  if List.isEmpty params then path
  else
    path ++ "?" ++ String.intercalate "&"
      (List.map (fun kv => urlSearchEncode kv.1 ++ "=" ++ urlSearchEncode (jsToString kv.2)) params)

/-- Injection of a map of plain string values (the spec's scalar `QueryParams`)
into the JavaScript parameter-map model. -/
def strParams (l : List (String × String)) : Params :=
  List.map (fun kv => (kv.1, JSVal.str kv.2)) l

/-- Query string as the specification describes it: each key and value
percent-encoded independently, joined with `&`, `?`-prefixed, empty for the
empty mapping, keys in insertion order. -/
def specQueryString (l : List (String × String)) : String :=
  if List.isEmpty l then ""
  else "?" ++ String.intercalate "&"
    (List.map (fun kv => encodeURIComponent kv.1 ++ "=" ++ encodeURIComponent kv.2) l)

example : formatQueryString (strParams [("a", "1"), ("b", "2")]) = "?a=1&b=2" := by decide
example : formatQueryString [] = "" := by decide
example : formatQueryString [("a", JSVal.null)] = "" := by decide
example : simpleRequestUrl "Patient" [("a", JSVal.null)] = "Patient?a=null" := by decide
example : encodeURIComponent "a b/c" = "a%20b%2Fc" := by decide
example : urlSearchEncode "a b/c" = "a+b%2Fc" := by decide

/-- The configuration object passed to the `StandardFhirClient` constructor. -/
structure ClientConfig where
  baseUrl : JSVal
  clientId : JSVal
  privateKeyPath : JSVal
  debug : JSVal
deriving Repr, DecidableEq

/-- The environment variables (`process.env`) the constructor falls back to. -/
structure EnvVars where
  FHIR_MCP_SERVER_URL : JSVal
  FHIR_CLIENT_ID : JSVal
  PRIVATE_KEY_PATH : JSVal
deriving Repr, DecidableEq

/-- The fhirclient handle created during initialization: the server URL plus
the optional `Authorization` custom header. -/
structure ClientHandle where
  serverUrl : String
  authorization : Option String
deriving Repr, DecidableEq

/-- The instance fields of a `StandardFhirClient`. -/
structure ClientState where
  baseUrl : JSVal
  clientId : JSVal
  privateKeyPath : JSVal
  debug : JSVal
  accessToken : JSVal
  client : Option ClientHandle
deriving Repr, DecidableEq

/-- The `StandardFhirClient` constructor (standard-fhir-client.js lines 25-36):
each field falls back from the config to an environment variable — and for
`baseUrl` further to a hard-coded default; `accessToken` and `client` start
`null`.  The constructor body performs no validation and contains no throw. -/
def mkStandardFhirClient (config : ClientConfig) (env : EnvVars) : ClientState :=
  { baseUrl := jsOr config.baseUrl
      (jsOr env.FHIR_MCP_SERVER_URL (JSVal.str "https://api.flexpa.com/fhir")),
    clientId := jsOr config.clientId env.FHIR_CLIENT_ID,
    privateKeyPath := jsOr config.privateKeyPath env.PRIVATE_KEY_PATH,
    debug := jsOr config.debug (JSVal.bool false),
    accessToken := JSVal.null,
    client := none }

/-- Outcome of running a client constructor, distinguishing the
`CallerMisuseError` the specification postulates for missing required
configuration from successful construction. -/
inductive ConstructOutcome (σ : Type) where
  | ok (st : σ)
  | callerMisuse (msg : String)
deriving Repr, DecidableEq

/-- Whether construction succeeded. -/
def ConstructOutcome.isOkB {σ : Type} : ConstructOutcome σ → Bool
  | .ok _ => true
  | .callerMisuse _ => false

/-- Running `new StandardFhirClient(config)`: always succeeds (no validation
path exists in the source). -/
def constructStandardFhirClient (config : ClientConfig) (env : EnvVars) :
    ConstructOutcome ClientState :=
  ConstructOutcome.ok (mkStandardFhirClient config env)

/-- The configuration object passed to the `SimpleFhirClient` constructor. -/
structure SimpleClientConfig where
  baseUrl : JSVal
  debug : JSVal
deriving Repr, DecidableEq

/-- The instance fields of a `SimpleFhirClient`. -/
structure SimpleClientState where
  baseUrl : JSVal
  debug : JSVal
deriving Repr, DecidableEq

/-- Running `new SimpleFhirClient(config)` (simple-fhir-client.js lines
339-355): stores `config.baseUrl` unvalidated and never throws. -/
def constructSimpleFhirClient (config : SimpleClientConfig) :
    ConstructOutcome SimpleClientState :=
  ConstructOutcome.ok
    { baseUrl := config.baseUrl, debug := jsOr config.debug (JSVal.bool false) }

/-- The JWT claims object built by `authenticateWithJWT` (lines 96-104). -/
structure JwtPayload where
  iss : JSVal
  sub : JSVal
  aud : String
  jti : String
  exp : Nat
  iat : Nat
deriving Repr, DecidableEq

/-- The assertion claims (lines 96-104): `aud` and `jti` are template strings,
so the raw values are coerced with `String(...)`. -/
def buildJwtAssertionPayload (clientId baseUrl : JSVal) (now : Nat) : JwtPayload :=
  { iss := clientId, sub := clientId,
    aud := jsToString baseUrl ++ "/auth/token",
    jti := jsToString clientId ++ "-" ++ toString now,
    exp := now + 300,
    iat := now }

/-- The `algorithm` option passed to `jwt.sign` (line 106). -/
def jwtSignAlgorithm : String := "RS256"

/-- The POST body sent to each candidate token endpoint (lines 124-129). -/
structure TokenRequestBody where
  grant_type : String
  client_assertion_type : String
  client_assertion : String
  client_id : JSVal
deriving Repr, DecidableEq

/-- Outcome of one `axios.post` to a token endpoint: the promise either rejects
(network failure or non-2xx status) with an error message, or resolves with a
JSON body. -/
inductive AttemptResult where
  | transportError (msg : String)
  | response (body : Params)
deriving Repr, DecidableEq

/-- The fixed ordered candidate endpoint list (lines 109-114). -/
def authEndpoints : List String :=
  ["/auth/token", "/oauth/token", "/token", "/oauth2/token"]

/-- Result of the endpoint-probe `for` loop (lines 116-144): the endpoints
actually attempted, and the loop's `tokenResponse` and `errorMessage`
variables. -/
structure ProbeResult where
  tried : List String
  tokenResponse : Option Params
  errorMessage : String
deriving Repr, DecidableEq

/-- The endpoint-probe loop: a transport error records `"<msg> at <endpoint>"`
and continues; a response whose `access_token` is truthy becomes the
`tokenResponse` and breaks the loop; a response without a truthy
`access_token` continues without touching the error message. -/
def probeLoop (attempt : String → AttemptResult) : List String → String → ProbeResult
  | [], errMsg => ⟨[], none, errMsg⟩
  | e :: rest, errMsg =>
    match attempt e with
    | .transportError m =>
      let r := probeLoop attempt rest (m ++ " at " ++ e)
      ⟨e :: r.tried, r.tokenResponse, r.errorMessage⟩
    | .response body =>
      if jsTruthy (objGet body "access_token") then ⟨[e], some body, errMsg⟩
      else
        let r := probeLoop attempt rest errMsg
        ⟨e :: r.tried, r.tokenResponse, r.errorMessage⟩

/-- Outcome of `authenticateWithJWT`: either it returns normally having set
`this.accessToken`, or it throws; both cases carry the instance state
afterwards. -/
inductive AuthOutcome where
  | success (st : ClientState)
  | failure (msg : String) (st : ClientState)
deriving Repr, DecidableEq

/-- The instance state after the authentication routine, however it ended. -/
def AuthOutcome.stateOf : AuthOutcome → ClientState
  | .success st => st
  | .failure _ st => st

/-- The client-credentials grant body built from the signed assertion
(lines 124-129). -/
def tokenRequestBody (st : ClientState) (privateKey : String) (now : Nat)
    (sign : JwtPayload → String → String → String) : TokenRequestBody :=
  { grant_type := "client_credentials",
    client_assertion_type := "urn:ietf:params:oauth:client-assertion-type:jwt-bearer",
    client_assertion :=
      sign (buildJwtAssertionPayload st.clientId st.baseUrl now) privateKey jwtSignAlgorithm,
    client_id := st.clientId }

/-- `StandardFhirClient.authenticateWithJWT` (lines 88-157).  Its effectful
dependencies are inputs: `keyRead` is the result of `fs.readFileSync` on the
key file, `now` the unix-seconds clock, `sign` the `jwt.sign` function, and
`attempt` the outcome of POSTing a given body to a given endpoint.  A thrown
error becomes a `failure` carrying the instance state at the throw; note that
`this.accessToken` is assigned (line 150) only after the probe loop produced a
`tokenResponse`. -/
def authenticateWithJWT (st : ClientState) (keyRead : Except String String) (now : Nat)
    (sign : JwtPayload → String → String → String)
    (attempt : String → TokenRequestBody → AttemptResult) : AuthOutcome :=
  match keyRead with
  | .error m => .failure m st
  | .ok privateKey =>
    let body := tokenRequestBody st privateKey now sign
    let r := probeLoop (fun e => attempt e body) authEndpoints ""
    match r.tokenResponse with
    | none => .failure ("Failed to authenticate: " ++ r.errorMessage) st
    | some tokenResponse =>
      .success { st with accessToken := objGet tokenResponse "access_token" }

/-- Creating the fhirclient handle (lines 63-76): the `Authorization: Bearer`
custom header is added exactly when `this.accessToken` is truthy. -/
def attachClient (st : ClientState) : ClientState :=
  let handle : ClientHandle :=
    { serverUrl := jsToString st.baseUrl,
      authorization :=
        if jsTruthy st.accessToken then some ("Bearer " ++ jsToString st.accessToken)
        else none }
  { st with client := some handle }

/-- HTTP methods. -/
inductive Method where
  | GET
  | POST
  | PUT
  | DELETE
deriving Repr, DecidableEq

/-- Events observable at the client boundary: an invocation of the JWT
authentication routine, or an HTTP request to the FHIR server. -/
inductive Event where
  | authAttempt
  | httpRequest (method : Method) (path : String) (authorization : Option String)
deriving Repr, DecidableEq

/-- `StandardFhirClient.initialize` (lines 52-82): authentication is skipped
when a token is already cached, and attempted only when `clientId` and
`privateKeyPath` are both truthy; afterwards the fhirclient handle is created.
Returns the new state, the thrown error message if any, and the emitted
events. -/
def initClient (keyRead : Except String String) (now : Nat)
    (sign : JwtPayload → String → String → String)
    (attempt : String → TokenRequestBody → AttemptResult)
    (st : ClientState) : ClientState × Option String × List Event :=
  if jsTruthy st.accessToken then (attachClient st, none, [])
  else if jsTruthy st.clientId && jsTruthy st.privateKeyPath then
    match authenticateWithJWT st keyRead now sign attempt with
    | .failure m st2 => (st2, some m, [Event.authAttempt])
    | .success st2 => (attachClient st2, none, [Event.authAttempt])
  else (attachClient st, none, [])

/-- `StandardFhirClient.ensureClient` (lines 178-183). -/
def ensureClient (keyRead : Except String String) (now : Nat)
    (sign : JwtPayload → String → String → String)
    (attempt : String → TokenRequestBody → AttemptResult)
    (st : ClientState) : ClientState × Option String × List Event :=
  match st.client with
  | some _ => (st, none, [])
  | none => initClient keyRead now sign attempt st

/-- The read operations offered by `StandardFhirClient`. -/
inductive StandardOperation where
  | getCapabilityStatement
  | searchPatients (params : Params)
  | getPatient (id : String)
  | searchObservations (params : Params)
  | getPatientObservations (pid : String) (extra : Params)
  | searchConditions (params : Params)
  | getPatientConditions (pid : String) (extra : Params)
  | request (path : String) (params : Params)
deriving Repr

/-- The path each operation hands to `this.client.request(...)`
(lines 163-306); the `getPatient*` convenience methods merge the caller's
extra parameters with `{patient: patientId}` by object spread. -/
def opPath : StandardOperation → String
  | .getCapabilityStatement => "metadata"
  | .searchPatients params => "Patient" ++ formatQueryString params
  | .getPatient id => "Patient/" ++ id
  | .searchObservations params => "Observation" ++ formatQueryString params
  | .getPatientObservations pid extra =>
    "Observation" ++ formatQueryString (objSet extra "patient" (JSVal.str pid))
  | .searchConditions params => "Condition" ++ formatQueryString params
  | .getPatientConditions pid extra =>
    "Condition" ++ formatQueryString (objSet extra "patient" (JSVal.str pid))
  | .request path params => path ++ formatQueryString params

/-- Running one operation: ensure the client, then issue a GET for the
operation's path carrying the handle's `Authorization` header.  If
initialization threw, the error propagates and no FHIR request is issued. -/
def runOperation (keyRead : Except String String) (now : Nat)
    (sign : JwtPayload → String → String → String)
    (attempt : String → TokenRequestBody → AttemptResult)
    (st : ClientState) (op : StandardOperation) : ClientState × List Event :=
  match ensureClient keyRead now sign attempt st with
  | (st2, some _, evs) => (st2, evs)
  | (st2, none, evs) =>
    match st2.client with
    | some handle =>
      (st2, evs ++ [Event.httpRequest Method.GET (opPath op) handle.authorization])
    | none => (st2, evs)

/-- Running a sequence of operations against one client instance.  Each
operation's error is caught by the caller (as the demo scripts do), so later
operations still run. -/
def runOps (keyRead : Except String String) (now : Nat)
    (sign : JwtPayload → String → String → String)
    (attempt : String → TokenRequestBody → AttemptResult) :
    ClientState → List StandardOperation → ClientState × List Event
  | st, [] => (st, [])
  | st, op :: ops =>
    let r := runOperation keyRead now sign attempt st op
    let rest := runOps keyRead now sign attempt r.1 ops
    (rest.1, r.2 ++ rest.2)

/-- An HTTP request issued by the `SimpleFhirClient`. -/
structure SimpleHttpRequest where
  method : Method
  url : String
deriving Repr, DecidableEq

/-- `SimpleFhirClient.request` (lines 373-395) always performs
`this.http.get(url)`. -/
def simpleRequest (path : String) (params : Params) : SimpleHttpRequest :=
  { method := Method.GET, url := simpleRequestUrl path params }

/-- The read operations offered by `SimpleFhirClient` (lines 373-481). -/
inductive SimpleOperation where
  | getCapabilityStatement
  | searchPatients (params : Params)
  | getPatient (id : String)
  | searchObservations (params : Params)
  | getPatientObservations (pid : String) (extra : Params)
  | searchConditions (params : Params)
  | getPatientConditions (pid : String) (extra : Params)
  | searchMedications (params : Params)
  | getPatientMedications (pid : String) (extra : Params)
  | request (path : String) (params : Params)
deriving Repr

/-- The HTTP request each `SimpleFhirClient` operation issues; the
`getPatient*` convenience methods do the same spread-merge as the standard
client. -/
def simpleOpRequest : SimpleOperation → SimpleHttpRequest
  | .getCapabilityStatement => simpleRequest "metadata" []
  | .searchPatients params => simpleRequest "Patient" params
  | .getPatient id => simpleRequest ("Patient/" ++ id) []
  | .searchObservations params => simpleRequest "Observation" params
  | .getPatientObservations pid extra =>
    simpleRequest "Observation" (objSet extra "patient" (JSVal.str pid))
  | .searchConditions params => simpleRequest "Condition" params
  | .getPatientConditions pid extra =>
    simpleRequest "Condition" (objSet extra "patient" (JSVal.str pid))
  | .searchMedications params => simpleRequest "MedicationRequest" params
  | .getPatientMedications pid extra =>
    simpleRequest "MedicationRequest" (objSet extra "patient" (JSVal.str pid))
  | .request path params => simpleRequest path params

/-- Whether a POST to this endpoint yields a (truthy) `access_token`.  This is
the specification's notion of "the response contains an `access_token`
field", read — as the source's truthiness test does — as the field being
present with a non-empty value. -/
def yieldsToken (attempt : String → AttemptResult) (e : String) : Bool :=
  match attempt e with
  | .transportError _ => false
  | .response body => jsTruthy (objGet body "access_token")

/-- Index of the first list element satisfying `p`. -/
def firstIdx (p : String → Bool) : List String → Option Nat
  | [] => none
  | x :: xs => if p x then some 0 else Option.map (fun n => n + 1) (firstIdx p xs)

/-- First list element satisfying `p`. -/
def firstHit (p : String → Bool) : List String → Option String
  | [] => none
  | x :: xs => if p x then some x else firstHit p xs

/-- The response body, if the attempt resolved. -/
def responseBody : AttemptResult → Option Params
  | .transportError _ => none
  | .response body => some body

/-- The last transport error among the attempts on the given endpoints,
together with its endpoint. -/
def lastTransportError (attempt : String → AttemptResult) :
    List String → Option (String × String)
  | [] => none
  | e :: rest =>
    match lastTransportError attempt rest with
    | some r => some r
    | none =>
      match attempt e with
      | .transportError m => some (e, m)
      | .response _ => none

theorem yieldsToken_true {attempt : String → AttemptResult} {e : String}
    (h : yieldsToken attempt e = true) :
    ∃ body, attempt e = AttemptResult.response body ∧
      jsTruthy (objGet body "access_token") = true := by
  unfold yieldsToken at h
  cases ha : attempt e with
  | transportError m => rw [ha] at h; simp at h
  | response body => rw [ha] at h; exact ⟨body, rfl, h⟩

theorem probeLoop_tried (attempt : String → AttemptResult) :
    ∀ (endpoints : List String) (errMsg : String),
    (probeLoop attempt endpoints errMsg).tried =
      (match firstIdx (yieldsToken attempt) endpoints with
       | some i => List.take (i + 1) endpoints
       | none => endpoints) := by
  intro endpoints
  induction endpoints with
  | nil => intro errMsg; rfl
  | cons e rest ih =>
    intro errMsg
    cases h : attempt e with
    | transportError m =>
      have hy : yieldsToken attempt e = false := by simp [yieldsToken, h]
      cases hf : firstIdx (yieldsToken attempt) rest with
      | none => simp [probeLoop, h, firstIdx, hy, hf, ih]
      | some i => simp [probeLoop, h, firstIdx, hy, hf, ih]
    | response body =>
      cases ht : jsTruthy (objGet body "access_token") with
      | true =>
        have hy : yieldsToken attempt e = true := by simp [yieldsToken, h, ht]
        simp [probeLoop, h, ht, firstIdx, hy]
      | false =>
        have hy : yieldsToken attempt e = false := by simp [yieldsToken, h, ht]
        cases hf : firstIdx (yieldsToken attempt) rest with
        | none => simp [probeLoop, h, ht, firstIdx, hy, hf, ih]
        | some i => simp [probeLoop, h, ht, firstIdx, hy, hf, ih]

theorem probeLoop_token (attempt : String → AttemptResult) :
    ∀ (endpoints : List String) (errMsg : String),
    (probeLoop attempt endpoints errMsg).tokenResponse =
      Option.bind (firstHit (yieldsToken attempt) endpoints)
        (fun e => responseBody (attempt e)) := by
  intro endpoints
  induction endpoints with
  | nil => intro errMsg; rfl
  | cons e rest ih =>
    intro errMsg
    cases h : attempt e with
    | transportError m =>
      have hy : yieldsToken attempt e = false := by simp [yieldsToken, h]
      simp [probeLoop, h, firstHit, hy, ih]
    | response body =>
      cases ht : jsTruthy (objGet body "access_token") with
      | true =>
        have hy : yieldsToken attempt e = true := by simp [yieldsToken, h, ht]
        simp [probeLoop, h, ht, firstHit, hy, responseBody]
      | false =>
        have hy : yieldsToken attempt e = false := by simp [yieldsToken, h, ht]
        simp [probeLoop, h, ht, firstHit, hy, ih]

theorem firstHit_eq_none {p : String → Bool} :
    ∀ {l : List String}, firstHit p l = none ↔ ∀ x ∈ l, p x = false := by
  intro l
  induction l with
  | nil => simp [firstHit]
  | cons x xs ih =>
    cases hp : p x with
    | true => simp [firstHit, hp]
    | false => simp [firstHit, hp, ih]

theorem firstHit_eq_some {p : String → Bool} :
    ∀ {l : List String} {x : String}, firstHit p l = some x → x ∈ l ∧ p x = true := by
  intro l
  induction l with
  | nil => intro x h; simp [firstHit] at h
  | cons y ys ih =>
    intro x h
    cases hp : p y with
    | true =>
      simp [firstHit, hp] at h
      subst h
      exact ⟨List.mem_cons_self _ _, hp⟩
    | false =>
      simp [firstHit, hp] at h
      have := ih h
      exact ⟨List.mem_cons_of_mem _ this.1, this.2⟩

theorem probeLoop_token_none_iff (attempt : String → AttemptResult)
    (endpoints : List String) (errMsg : String) :
    (probeLoop attempt endpoints errMsg).tokenResponse = none ↔
      ∀ e ∈ endpoints, yieldsToken attempt e = false := by
  rw [probeLoop_token]
  constructor
  · intro h
    cases hf : firstHit (yieldsToken attempt) endpoints with
    | none => exact firstHit_eq_none.mp hf
    | some e =>
      exfalso
      have he := firstHit_eq_some hf
      obtain ⟨body, hb, _⟩ := yieldsToken_true he.2
      rw [hf] at h
      simp [hb, responseBody] at h
  · intro h
    rw [firstHit_eq_none.mpr h]
    rfl

theorem probeLoop_token_some (attempt : String → AttemptResult)
    (endpoints : List String) (errMsg : String) (body : Params)
    (h : (probeLoop attempt endpoints errMsg).tokenResponse = some body) :
    ∃ e, e ∈ endpoints ∧ attempt e = AttemptResult.response body ∧
      jsTruthy (objGet body "access_token") = true := by
  rw [probeLoop_token] at h
  cases hf : firstHit (yieldsToken attempt) endpoints with
  | none => rw [hf] at h; simp at h
  | some e =>
    rw [hf] at h
    have h2 : responseBody (attempt e) = some body := h
    have he := firstHit_eq_some hf
    obtain ⟨b, hb, htr⟩ := yieldsToken_true he.2
    rw [hb] at h2
    simp [responseBody] at h2
    subst h2
    exact ⟨e, he.1, hb, htr⟩

theorem probeLoop_errorMessage (attempt : String → AttemptResult) :
    ∀ (endpoints : List String) (errMsg : String),
    (probeLoop attempt endpoints errMsg).tokenResponse = none →
    (probeLoop attempt endpoints errMsg).errorMessage =
      (match lastTransportError attempt endpoints with
       | some em => em.2 ++ " at " ++ em.1
       | none => errMsg) := by
  intro endpoints
  induction endpoints with
  | nil => intro errMsg _; rfl
  | cons e rest ih =>
    intro errMsg hnone
    cases h : attempt e with
    | transportError m =>
      have hrest : (probeLoop attempt rest (m ++ " at " ++ e)).tokenResponse = none := by
        simp [probeLoop, h] at hnone
        exact hnone
      have hr := ih (m ++ " at " ++ e) hrest
      simp [probeLoop, h, lastTransportError, hr]
      cases hl : lastTransportError attempt rest with
      | none => simp
      | some em => simp
    | response body =>
      cases ht : jsTruthy (objGet body "access_token") with
      | true => simp [probeLoop, h, ht] at hnone
      | false =>
        have hrest : (probeLoop attempt rest errMsg).tokenResponse = none := by
          simp [probeLoop, h, ht] at hnone
          exact hnone
        have hr := ih errMsg hrest
        simp [probeLoop, h, ht, lastTransportError, hr]
        cases hl : lastTransportError attempt rest with
        | none => simp
        | some em => simp

theorem objLookup_setMap_self :
    ∀ (params : Params) (k : String) (v : JSVal),
    List.any params (fun kv => kv.1 = k) = true →
    objLookup (List.map (fun kv => if kv.1 = k then (kv.1, v) else kv) params) k = some v := by
  intro params k v
  induction params with
  | nil => intro h; simp at h
  | cons kv rest ih =>
    intro h
    by_cases hk : kv.1 = k
    · simp [objLookup, hk]
    · simp only [List.any_cons, Bool.or_eq_true, decide_eq_true_eq] at h
      rcases h with h | h
      · exact absurd h hk
      · simp only [List.map_cons, if_neg hk]
        rw [objLookup]
        simp only [if_neg hk]
        exact ih (by simpa using h)

theorem objLookup_setMap_other :
    ∀ (params : Params) (k : String) (v : JSVal) (k2 : String), k2 ≠ k →
    objLookup (List.map (fun kv => if kv.1 = k then (kv.1, v) else kv) params) k2 =
      objLookup params k2 := by
  intro params k v k2 hne
  induction params with
  | nil => rfl
  | cons kv rest ih =>
    by_cases hk : kv.1 = k
    · have hk2 : kv.1 ≠ k2 := by rw [hk]; exact fun h => hne h.symm
      simp only [List.map_cons, if_pos hk]
      rw [objLookup, objLookup]
      simp only [if_neg hk2]
      exact ih
    · by_cases hk2 : kv.1 = k2
      · simp only [List.map_cons, if_neg hk]
        rw [objLookup, objLookup]
        simp only [if_pos hk2]
      · simp only [List.map_cons, if_neg hk]
        rw [objLookup, objLookup]
        simp only [if_neg hk2]
        exact ih

theorem objLookup_eq_none_of_not_any :
    ∀ (params : Params) (k : String),
    List.any params (fun kv => kv.1 = k) = false → objLookup params k = none := by
  intro params k
  induction params with
  | nil => intro _; rfl
  | cons kv rest ih =>
    intro h
    simp only [List.any_cons, Bool.or_eq_false_iff, decide_eq_false_iff_not] at h
    rw [objLookup]
    simp only [if_neg h.1]
    exact ih (by simpa using h.2)

theorem objLookup_append_single :
    ∀ (params : Params) (k : String) (v : JSVal) (k2 : String),
    objLookup (params ++ [(k, v)]) k2 =
      (match objLookup params k2 with
       | some w => some w
       | none => if k = k2 then some v else none) := by
  intro params k v k2
  induction params with
  | nil => rfl
  | cons kv rest ih =>
    by_cases hk2 : kv.1 = k2
    · rw [List.cons_append, objLookup, objLookup]
      simp only [if_pos hk2]
    · rw [List.cons_append, objLookup, objLookup]
      simp only [if_neg hk2]
      exact ih

/-- Reading any key after the spread-merge `{...params, k: v}`: the merged key
reads the new value (last-write-wins) and every other key is untouched. -/
theorem objGet_objSet (params : Params) (k : String) (v : JSVal) (k2 : String) :
    objGet (objSet params k v) k2 = if k2 = k then v else objGet params k2 := by
  unfold objSet
  cases ha : List.any params (fun kv => kv.1 = k) with
  | true =>
    simp only [ha, if_true]
    by_cases hk2 : k2 = k
    · subst hk2
      simp [objGet, objLookup_setMap_self params k2 v ha]
    · simp [objGet, hk2, objLookup_setMap_other params k v k2 hk2]
  | false =>
    simp only [ha, Bool.false_eq_true, if_false]
    unfold objGet
    rw [objLookup_append_single]
    by_cases hk2 : k2 = k
    · subst hk2
      rw [objLookup_eq_none_of_not_any params k2 ha]
      simp
    · cases hl : objLookup params k2 with
      | none =>
        have hne : k ≠ k2 := fun h => hk2 h.symm
        simp [hne, hk2]
      | some w => simp [hk2]

theorem filterMap_queryPart_strParams (l : List (String × String)) :
    List.filterMap queryPart (strParams l) =
      List.map (fun kv => encodeURIComponent kv.1 ++ "=" ++ encodeURIComponent kv.2) l := by
  induction l with
  | nil => rfl
  | cons kv rest ih =>
    have hq : queryPart (kv.1, JSVal.str kv.2) =
        some (encodeURIComponent kv.1 ++ "=" ++ encodeURIComponent kv.2) := rfl
    show List.filterMap queryPart ((kv.1, JSVal.str kv.2) :: strParams rest) = _
    rw [List.filterMap_cons, hq, List.map_cons, ih]

/-- `formatQueryString` in closed form: the outer emptiness test is subsumed by
the emptiness of the encoded fragments. -/
theorem formatQueryString_eq_parts (params : Params) :
    formatQueryString params =
      (if List.isEmpty (List.filterMap queryPart params) then ""
       else "?" ++ String.intercalate "&" (List.filterMap queryPart params)) := by
  cases params with
  | nil => rfl
  | cons kv rest => simp [formatQueryString]

theorem filterMap_queryPart_dropUndefinedNull (params : Params) :
    List.filterMap queryPart (dropUndefinedNull params) = List.filterMap queryPart params := by
  induction params with
  | nil => rfl
  | cons kv rest ih =>
    simp only [dropUndefinedNull] at ih ⊢
    cases hd : definedVal kv.2 with
    | true =>
      have hs : queryPart kv =
          some (encodeURIComponent kv.1 ++ "=" ++ encodeURIComponent (jsToString kv.2)) := by
        simp [queryPart, hd]
      rw [List.filter_cons, List.filterMap_cons]
      simp only [hd, if_true, List.filterMap_cons, hs, ih]
    | false =>
      have hq : queryPart kv = none := by simp [queryPart, hd]
      rw [List.filter_cons, List.filterMap_cons]
      simp only [hd, Bool.false_eq_true, if_false, hq, ih]

/-- An event is anonymous: it is not an invocation of the authentication
routine, and any HTTP request it records carries no Authorization header. -/
def anonymousEvent : Event → Bool
  | .authAttempt => false
  | .httpRequest _ _ auth => auth.isNone

/-- An event involves no write access: any HTTP request it records is a GET. -/
def getOnlyEvent : Event → Bool
  | .authAttempt => true
  | .httpRequest Method.GET _ _ => true
  | .httpRequest _ _ _ => false

/-- Invariant of a credential-less client: `clientId` and `privateKeyPath` are
not both truthy, no truthy token is cached, and any created handle carries no
Authorization header. -/
def anonState (st : ClientState) : Prop :=
  (jsTruthy st.clientId && jsTruthy st.privateKeyPath) = false ∧
  jsTruthy st.accessToken = false ∧
  ∀ h, st.client = some h → h.authorization = none

theorem attachClient_fixed (st : ClientState) :
    (attachClient st).clientId = st.clientId ∧
    (attachClient st).privateKeyPath = st.privateKeyPath ∧
    (attachClient st).accessToken = st.accessToken := ⟨rfl, rfl, rfl⟩

theorem attachClient_auth_none (st : ClientState) (htok : jsTruthy st.accessToken = false) :
    ∀ h, (attachClient st).client = some h → h.authorization = none := by
  intro h hh
  have hh2 : some (⟨jsToString st.baseUrl,
      if jsTruthy st.accessToken then some ("Bearer " ++ jsToString st.accessToken)
      else none⟩ : ClientHandle) = some h := hh
  injection hh2 with hh3
  rw [← hh3]
  simp [htok]

theorem runOperation_client_some (keyRead : Except String String) (now : Nat)
    (sign : JwtPayload → String → String → String)
    (attempt : String → TokenRequestBody → AttemptResult)
    (st : ClientState) (op : StandardOperation) (handle : ClientHandle)
    (hc : st.client = some handle) :
    runOperation keyRead now sign attempt st op =
      (st, [Event.httpRequest Method.GET (opPath op) handle.authorization]) := by
  unfold runOperation ensureClient
  simp [hc]

theorem runOperation_client_none_nocreds (keyRead : Except String String) (now : Nat)
    (sign : JwtPayload → String → String → String)
    (attempt : String → TokenRequestBody → AttemptResult)
    (st : ClientState) (op : StandardOperation)
    (hc : st.client = none) (htok : jsTruthy st.accessToken = false)
    (hcred : (jsTruthy st.clientId && jsTruthy st.privateKeyPath) = false) :
    runOperation keyRead now sign attempt st op =
      (attachClient st, [Event.httpRequest Method.GET (opPath op) none]) := by
  have hA : ∀ h, (attachClient st).client = some h → h.authorization = none :=
    attachClient_auth_none st htok
  have hAc : (attachClient st).client =
      some (⟨jsToString st.baseUrl,
        if jsTruthy st.accessToken then some ("Bearer " ++ jsToString st.accessToken)
        else none⟩ : ClientHandle) := rfl
  unfold runOperation ensureClient initClient
  simp [hc, htok, hcred, attachClient]

theorem runOperation_anon (keyRead : Except String String) (now : Nat)
    (sign : JwtPayload → String → String → String)
    (attempt : String → TokenRequestBody → AttemptResult)
    (st : ClientState) (op : StandardOperation) (hst : anonState st) :
    anonState (runOperation keyRead now sign attempt st op).1 ∧
    List.all (runOperation keyRead now sign attempt st op).2 anonymousEvent = true := by
  obtain ⟨hcred, htok, hcli⟩ := hst
  cases hc : st.client with
  | some handle =>
    rw [runOperation_client_some keyRead now sign attempt st op handle hc]
    refine ⟨⟨hcred, htok, hcli⟩, ?_⟩
    simp [anonymousEvent, hcli handle hc]
  | none =>
    rw [runOperation_client_none_nocreds keyRead now sign attempt st op hc htok hcred]
    refine ⟨⟨hcred, htok, attachClient_auth_none st htok⟩, ?_⟩
    simp [anonymousEvent]

theorem runOps_anon (keyRead : Except String String) (now : Nat)
    (sign : JwtPayload → String → String → String)
    (attempt : String → TokenRequestBody → AttemptResult) :
    ∀ (ops : List StandardOperation) (st : ClientState), anonState st →
    List.all (runOps keyRead now sign attempt st ops).2 anonymousEvent = true := by
  intro ops
  induction ops with
  | nil => intro st _; rfl
  | cons op rest ih =>
    intro st hst
    have h1 := runOperation_anon keyRead now sign attempt st op hst
    have h2 := ih (runOperation keyRead now sign attempt st op).1 h1.1
    simp only [runOps]
    rw [List.all_append, h1.2, h2]
    rfl

theorem initClient_events_get (keyRead : Except String String) (now : Nat)
    (sign : JwtPayload → String → String → String)
    (attempt : String → TokenRequestBody → AttemptResult) (st : ClientState) :
    List.all (initClient keyRead now sign attempt st).2.2 getOnlyEvent = true := by
  unfold initClient
  cases h1 : jsTruthy st.accessToken with
  | true => simp [h1]
  | false =>
    cases h2 : (jsTruthy st.clientId && jsTruthy st.privateKeyPath) with
    | true =>
      simp only [h1, h2, Bool.false_eq_true, if_false, if_true]
      cases hA : authenticateWithJWT st keyRead now sign attempt with
      | failure m st2 => rfl
      | success st2 => rfl
    | false => simp [h1, h2]

theorem ensureClient_events_get (keyRead : Except String String) (now : Nat)
    (sign : JwtPayload → String → String → String)
    (attempt : String → TokenRequestBody → AttemptResult) (st : ClientState) :
    List.all (ensureClient keyRead now sign attempt st).2.2 getOnlyEvent = true := by
  unfold ensureClient
  cases hc : st.client with
  | some handle => rfl
  | none => exact initClient_events_get keyRead now sign attempt st

theorem runOperation_events_get (keyRead : Except String String) (now : Nat)
    (sign : JwtPayload → String → String → String)
    (attempt : String → TokenRequestBody → AttemptResult)
    (st : ClientState) (op : StandardOperation) :
    List.all (runOperation keyRead now sign attempt st op).2 getOnlyEvent = true := by
  have hI := ensureClient_events_get keyRead now sign attempt st
  unfold runOperation
  rcases hE : ensureClient keyRead now sign attempt st with ⟨st2, err, evs⟩
  rw [hE] at hI
  simp only at hI
  cases err with
  | some m => simpa using hI
  | none =>
    cases hc2 : st2.client with
    | some handle =>
      simp only [hc2, List.all_append]
      rw [hI]
      rfl
    | none => simpa [hc2] using hI

theorem runOps_events_get (keyRead : Except String String) (now : Nat)
    (sign : JwtPayload → String → String → String)
    (attempt : String → TokenRequestBody → AttemptResult) :
    ∀ (ops : List StandardOperation) (st : ClientState),
    List.all (runOps keyRead now sign attempt st ops).2 getOnlyEvent = true := by
  intro ops
  induction ops with
  | nil => intro st; rfl
  | cons op rest ih =>
    intro st
    simp only [runOps]
    rw [List.all_append, runOperation_events_get keyRead now sign attempt st op,
      ih (runOperation keyRead now sign attempt st op).1]
    rfl

/-- A sample credential-bearing client state, used to exercise the theorems at
concrete inputs. -/
def sampleState : ClientState :=
  { baseUrl := JSVal.str "https://fhir.example.org",
    clientId := JSVal.str "client-1",
    privateKeyPath := JSVal.str "key.pem",
    debug := JSVal.bool false,
    accessToken := JSVal.null,
    client := none }

/-- A sample signing function (the signature string is irrelevant to the
control flow being exercised). -/
def sampleSign : JwtPayload → String → String → String :=
  fun _ _ _ => "signed-assertion"

/-- A transport behaviour in which every token endpoint fails. -/
def sampleFailAttempt : String → AttemptResult :=
  fun _ => AttemptResult.transportError "connect ECONNREFUSED"

/-- C1: for a client configured with `clientId` and `privateKeyPath`, the
authentication routine probes exactly the four token endpoints `/auth/token`,
`/oauth/token`, `/token`, `/oauth2/token` in that order, stops at the first
response whose body contains a (truthy) `access_token` field, and when no
endpoint yields a token it throws an error whose message carries the last
transport error message together with the endpoint at which that error
occurred. -/
theorem auth_probes_four_endpoints_in_order (attempt : String → AttemptResult) :
    authEndpoints = ["/auth/token", "/oauth/token", "/token", "/oauth2/token"]
    ∧ (probeLoop attempt authEndpoints "").tried =
        (match firstIdx (yieldsToken attempt) authEndpoints with
         | some i => List.take (i + 1) authEndpoints
         | none => authEndpoints)
    ∧ (probeLoop attempt authEndpoints "").tokenResponse =
        Option.bind (firstHit (yieldsToken attempt) authEndpoints)
          (fun e => responseBody (attempt e))
    ∧ (∀ (st : ClientState) (key : String) (now : Nat)
         (sign : JwtPayload → String → String → String) (e m : String),
        (probeLoop attempt authEndpoints "").tokenResponse = none →
        lastTransportError attempt authEndpoints = some (e, m) →
        authenticateWithJWT st (Except.ok key) now sign (fun ep _ => attempt ep) =
          AuthOutcome.failure ("Failed to authenticate: " ++ (m ++ " at " ++ e)) st) := by
  refine ⟨rfl, probeLoop_tried attempt authEndpoints "",
    probeLoop_token attempt authEndpoints "", ?_⟩
  intro st key now sign e m hnone hlast
  have herr0 := probeLoop_errorMessage attempt authEndpoints "" hnone
  rw [hlast] at herr0
  have herr : (probeLoop attempt authEndpoints "").errorMessage = m ++ " at " ++ e := herr0
  have hred : authenticateWithJWT st (Except.ok key) now sign (fun ep _ => attempt ep) =
      (match (probeLoop attempt authEndpoints "").tokenResponse with
       | none => AuthOutcome.failure
           ("Failed to authenticate: " ++ (probeLoop attempt authEndpoints "").errorMessage) st
       | some tokenResponse =>
         AuthOutcome.success { st with accessToken := objGet tokenResponse "access_token" }) := rfl
  rw [hred, hnone, herr]

/-- C1 witness: when every endpoint rejects in transport, the routine fails
with a message naming the last transport error and the last endpoint,
`/oauth2/token`. -/
theorem auth_probes_four_endpoints_in_order_witness :
    authenticateWithJWT sampleState (Except.ok "key-pem") 0 sampleSign
        (fun ep _ => sampleFailAttempt ep) =
      AuthOutcome.failure
        ("Failed to authenticate: " ++ ("connect ECONNREFUSED" ++ " at " ++ "/oauth2/token"))
        sampleState := by
  exact (auth_probes_four_endpoints_in_order sampleFailAttempt).2.2.2 sampleState "key-pem" 0
    sampleSign "/oauth2/token" "connect ECONNREFUSED" (by decide) (by decide)

/-- C2: for a mapping of (defined, scalar) values, the query-string builder
produces `?k1=v1&k2=v2...` with each key and value percent-encoded
independently and keys in insertion order; the empty mapping gives the empty
string; in particular the mapping `{a:"1", b:"2"}` gives exactly `?a=1&b=2`
(and the same URL shape holds in the simple client). -/
theorem query_string_builder_insertion_order :
    (∀ l : List (String × String), formatQueryString (strParams l) = specQueryString l)
    ∧ formatQueryString [] = ""
    ∧ formatQueryString (strParams [("a", "1"), ("b", "2")]) = "?a=1&b=2"
    ∧ simpleRequestUrl "Patient" (strParams [("a", "1"), ("b", "2")]) = "Patient?a=1&b=2" := by
  refine ⟨?_, rfl, by decide, by decide⟩
  intro l
  rw [formatQueryString_eq_parts, filterMap_queryPart_strParams]
  cases l with
  | nil => rfl
  | cons kv rest => simp [specQueryString]

/-- C3 counterexample: `SimpleFhirClient.request` does not drop a `null`-valued
key — `URLSearchParams` stringifies the value, so the key appears in the URL
as `a=null`, contradicting the claim that no such key appears in either client
implementation. -/
theorem simple_client_null_param_not_dropped_cex :
    simpleRequestUrl "Patient" [("a", JSVal.null)] = "Patient?a=null"
    ∧ simpleRequestUrl "Patient" [("a", JSVal.null)] ≠ "Patient"
    ∧ (simpleOpRequest (SimpleOperation.request "Patient" [("a", JSVal.null)])).url
        = "Patient?a=null" := by
  exact ⟨by decide, by decide, by decide⟩

/-- C3 amended: `StandardFhirClient.formatQueryString` drops keys with
`undefined`/`null` values (its output equals the output on the mapping with
those entries removed), but `SimpleFhirClient.request` does not — it
serializes such a value as the string `null`/`undefined` and keeps the key. -/
theorem null_undefined_params_dropped_amended :
    (∀ params : Params, formatQueryString params = formatQueryString (dropUndefinedNull params))
    ∧ (∀ (path k : String), simpleRequestUrl path [(k, JSVal.null)] =
        path ++ "?" ++ (urlSearchEncode k ++ "=null")) := by
  constructor
  · intro params
    rw [formatQueryString_eq_parts, formatQueryString_eq_parts,
      filterMap_queryPart_dropUndefinedNull]
  · intro path k
    have h0 : simpleRequestUrl path [(k, JSVal.null)] =
        path ++ "?" ++ String.intercalate "&"
          [urlSearchEncode k ++ "=" ++ urlSearchEncode (jsToString JSVal.null)] := rfl
    have h1 : String.intercalate "&"
        [urlSearchEncode k ++ "=" ++ urlSearchEncode (jsToString JSVal.null)] =
        urlSearchEncode k ++ "=" ++ urlSearchEncode "null" := rfl
    have h2 : urlSearchEncode "null" = "null" := by decide
    have h3 : ("=" : String) ++ "null" = "=null" := by decide
    have h4 : urlSearchEncode k ++ "=" ++ "null" = urlSearchEncode k ++ "=null" := by
      rw [String.append_assoc, h3]
    rw [h0, h1, h2, h4]

/-- C4: the `getPatient*` convenience methods issue a request whose query is
the spread-merge of the caller's extra parameters with the patient filter: the
`patient` key is always present and equal to the patient id — even when the
caller supplies its own `patient` key (last-write-wins) — and all other keys
read as in the caller's mapping.  Concretely,
`getPatientObservations("p1", {_count:5})` requests
`Observation?_count=5&patient=p1`; conditions and medications follow the same
merge. -/
theorem patient_filter_merge (pid : String) (extra : Params) :
    (∀ k, objGet (objSet extra "patient" (JSVal.str pid)) k =
        (if k = "patient" then JSVal.str pid else objGet extra k))
    ∧ opPath (StandardOperation.getPatientObservations pid extra) =
        "Observation" ++ formatQueryString (objSet extra "patient" (JSVal.str pid))
    ∧ opPath (StandardOperation.getPatientConditions pid extra) =
        "Condition" ++ formatQueryString (objSet extra "patient" (JSVal.str pid))
    ∧ (simpleOpRequest (SimpleOperation.getPatientMedications pid extra)).url =
        simpleRequestUrl "MedicationRequest" (objSet extra "patient" (JSVal.str pid))
    ∧ opPath (StandardOperation.getPatientObservations "p1" [("_count", JSVal.num 5)]) =
        "Observation?_count=5&patient=p1" := by
  exact ⟨fun k => objGet_objSet extra "patient" (JSVal.str pid) k, rfl, rfl, rfl, by decide⟩

/-- C5: the signed JWT assertion has claims `iss = clientId`, `sub = clientId`,
`aud = baseUrl ++ "/auth/token"`, `jti = clientId ++ "-" ++ unixSeconds`,
`iat = now`, `exp = iat + 300`, and the token request carries the assertion
signed with RS256 over exactly this payload. -/
theorem jwt_assertion_claims (cid url : String) (now : Nat) :
    buildJwtAssertionPayload (JSVal.str cid) (JSVal.str url) now =
      { iss := JSVal.str cid, sub := JSVal.str cid,
        aud := url ++ "/auth/token",
        jti := cid ++ "-" ++ toString now,
        exp := now + 300, iat := now }
    ∧ (buildJwtAssertionPayload (JSVal.str cid) (JSVal.str url) now).exp =
        (buildJwtAssertionPayload (JSVal.str cid) (JSVal.str url) now).iat + 300
    ∧ jwtSignAlgorithm = "RS256"
    ∧ (∀ (st : ClientState) (key : String) (sign : JwtPayload → String → String → String),
        (tokenRequestBody st key now sign).client_assertion =
          sign (buildJwtAssertionPayload st.clientId st.baseUrl now) key "RS256") := by
  exact ⟨rfl, rfl, rfl, fun st key sign => rfl⟩

/-- C6: `request("Patient/" ++ id)` with no params and `getPatient(id)` issue
the same request — the path `Patient/{id}` with no query string — in both
client implementations. -/
theorem request_getPatient_equivalent (id : String) :
    opPath (StandardOperation.request ("Patient/" ++ id) []) =
      opPath (StandardOperation.getPatient id)
    ∧ simpleOpRequest (SimpleOperation.request ("Patient/" ++ id) []) =
        simpleOpRequest (SimpleOperation.getPatient id) := by
  constructor
  · show ("Patient/" ++ id) ++ formatQueryString [] = "Patient/" ++ id
    rw [show formatQueryString [] = "" from rfl, String.append_empty]
  · rfl

/-- A configuration with no credentials (and a config without any environment
fallback), as in the public-server demos. -/
def sampleNoCredConfig : ClientConfig :=
  { baseUrl := JSVal.str "https://hapi.fhir.org/baseR4", clientId := JSVal.undefined,
    privateKeyPath := JSVal.undefined, debug := JSVal.bool true }

/-- An environment providing none of the fallback variables. -/
def sampleEmptyEnv : EnvVars :=
  { FHIR_MCP_SERVER_URL := JSVal.undefined, FHIR_CLIENT_ID := JSVal.undefined,
    PRIVATE_KEY_PATH := JSVal.undefined }

/-- C7: a client constructed without both `clientId` and `privateKeyPath`
(after environment fallback) never triggers the JWT authentication routine
under any operation sequence, and every request it issues is anonymous — it
carries no Authorization header. -/
theorem no_credentials_never_authenticates (keyRead : Except String String) (now : Nat)
    (sign : JwtPayload → String → String → String)
    (attempt : String → TokenRequestBody → AttemptResult)
    (config : ClientConfig) (env : EnvVars) (ops : List StandardOperation)
    (hcred : (jsTruthy (mkStandardFhirClient config env).clientId &&
      jsTruthy (mkStandardFhirClient config env).privateKeyPath) = false) :
    List.all (runOps keyRead now sign attempt (mkStandardFhirClient config env) ops).2
      anonymousEvent = true := by
  apply runOps_anon
  refine ⟨hcred, rfl, ?_⟩
  intro h hh
  exact Option.noConfusion hh

/-- C7 witness: a credential-less demo client running two operations attempts
no authentication and sends only anonymous requests. -/
theorem no_credentials_never_authenticates_witness :
    ((jsTruthy (mkStandardFhirClient sampleNoCredConfig sampleEmptyEnv).clientId &&
      jsTruthy (mkStandardFhirClient sampleNoCredConfig sampleEmptyEnv).privateKeyPath) = false)
    ∧ List.all (runOps (Except.ok "key-pem") 0 sampleSign (fun _ _ => sampleFailAttempt "")
        (mkStandardFhirClient sampleNoCredConfig sampleEmptyEnv)
        [StandardOperation.getPatient "123",
         StandardOperation.searchPatients [("_count", JSVal.num 5)]]).2 anonymousEvent
        = true := by
  refine ⟨by decide, ?_⟩
  exact no_credentials_never_authenticates (Except.ok "key-pem") 0 sampleSign
    (fun _ _ => sampleFailAttempt "") sampleNoCredConfig sampleEmptyEnv
    [StandardOperation.getPatient "123",
     StandardOperation.searchPatients [("_count", JSVal.num 5)]] (by decide)

/-- C8: every FHIR request either client issues, under every operation
sequence, is an HTTP GET: the client only reads resources and never creates,
updates or deletes. -/
theorem client_requests_are_read_only :
    (∀ (keyRead : Except String String) (now : Nat)
       (sign : JwtPayload → String → String → String)
       (attempt : String → TokenRequestBody → AttemptResult)
       (st : ClientState) (ops : List StandardOperation),
      List.all (runOps keyRead now sign attempt st ops).2 getOnlyEvent = true)
    ∧ (∀ sop : SimpleOperation, (simpleOpRequest sop).method = Method.GET) := by
  constructor
  · intro keyRead now sign attempt st ops
    exact runOps_events_get keyRead now sign attempt ops st
  · intro sop
    cases sop <;> rfl

/-- C9 counterexample: constructing a `StandardFhirClient` with a configuration
missing `baseUrl` raises no error at all — construction succeeds and the field
silently takes the hard-coded Flexpa default; the `SimpleFhirClient`
constructor likewise succeeds with the missing value stored unvalidated.  This
contradicts the claimed CallerMisuseError. -/
theorem missing_baseUrl_no_error_cex :
    constructStandardFhirClient
        { baseUrl := JSVal.undefined, clientId := JSVal.undefined,
          privateKeyPath := JSVal.undefined, debug := JSVal.undefined }
        sampleEmptyEnv =
      ConstructOutcome.ok
        { baseUrl := JSVal.str "https://api.flexpa.com/fhir",
          clientId := JSVal.undefined, privateKeyPath := JSVal.undefined,
          debug := JSVal.bool false, accessToken := JSVal.null, client := none }
    ∧ (constructSimpleFhirClient { baseUrl := JSVal.undefined, debug := JSVal.undefined }).isOkB
        = true := by
  exact ⟨by decide, rfl⟩

/-- C9 amended: neither constructor can fail — no CallerMisuseError path exists;
a missing `baseUrl` falls back to the `FHIR_MCP_SERVER_URL` environment
variable and then to the hard-coded default instead of being rejected. -/
theorem constructor_never_fails_amended :
    (∀ (config : ClientConfig) (env : EnvVars),
      (constructStandardFhirClient config env).isOkB = true
      ∧ (mkStandardFhirClient config env).baseUrl =
          jsOr config.baseUrl
            (jsOr env.FHIR_MCP_SERVER_URL (JSVal.str "https://api.flexpa.com/fhir")))
    ∧ (∀ config : SimpleClientConfig, (constructSimpleFhirClient config).isOkB = true) := by
  exact ⟨fun config env => ⟨rfl, rfl⟩, fun config => rfl⟩

/-- C10: authentication is atomic with respect to the token cache.  When the
routine fails — key unreadable, or no endpoint yielded a token — the instance
state, in particular `accessToken`, is exactly the input state (still `null`
on a first attempt).  On success the state differs only in `accessToken`,
which holds the `access_token` of a response actually returned by one of the
probed endpoints. -/
theorem auth_token_cache_atomic (st : ClientState) (keyRead : Except String String)
    (now : Nat) (sign : JwtPayload → String → String → String)
    (attempt : String → TokenRequestBody → AttemptResult) :
    (∀ m st2, authenticateWithJWT st keyRead now sign attempt = AuthOutcome.failure m st2 →
      st2 = st)
    ∧ (∀ st2, authenticateWithJWT st keyRead now sign attempt = AuthOutcome.success st2 →
      ∃ key body, keyRead = Except.ok key
        ∧ (∃ e, e ∈ authEndpoints
            ∧ attempt e (tokenRequestBody st key now sign) = AttemptResult.response body
            ∧ jsTruthy (objGet body "access_token") = true)
        ∧ st2 = { st with accessToken := objGet body "access_token" }) := by
  constructor
  · intro m st2 h
    cases keyRead with
    | error me =>
      have h2 : AuthOutcome.failure me st = AuthOutcome.failure m st2 := h
      injection h2 with hm hst
      exact hst.symm
    | ok key =>
      simp only [authenticateWithJWT] at h
      cases htok : (probeLoop (fun e => attempt e (tokenRequestBody st key now sign))
          authEndpoints "").tokenResponse with
      | none =>
        rw [htok] at h
        injection h with hm hst
        exact hst.symm
      | some body =>
        rw [htok] at h
        exact AuthOutcome.noConfusion h
  · intro st2 h
    cases keyRead with
    | error me =>
      have h2 : AuthOutcome.failure me st = AuthOutcome.success st2 := h
      exact AuthOutcome.noConfusion h2
    | ok key =>
      simp only [authenticateWithJWT] at h
      cases htok : (probeLoop (fun e => attempt e (tokenRequestBody st key now sign))
          authEndpoints "").tokenResponse with
      | none =>
        rw [htok] at h
        exact AuthOutcome.noConfusion h
      | some body =>
        rw [htok] at h
        injection h with hst
        obtain ⟨e, he, hresp, htr⟩ := probeLoop_token_some
          (fun e => attempt e (tokenRequestBody st key now sign)) authEndpoints "" body htok
        exact ⟨key, body, rfl, ⟨e, he, hresp, htr⟩, hst.symm⟩

/-- C10 witness: a concrete all-endpoints-fail run ends in the failure branch
with the instance state — and hence the `null` token cache — unchanged. -/
theorem auth_token_cache_atomic_witness :
    (authenticateWithJWT sampleState (Except.ok "key-pem") 1700000000 sampleSign
        (fun ep _ => sampleFailAttempt ep) =
      AuthOutcome.failure
        ("Failed to authenticate: " ++ ("connect ECONNREFUSED" ++ " at " ++ "/oauth2/token"))
        sampleState)
    ∧ sampleState = sampleState ∧ sampleState.accessToken = JSVal.null := by
  refine ⟨by decide, ?_, rfl⟩
  exact (auth_token_cache_atomic sampleState (Except.ok "key-pem") 1700000000 sampleSign
    (fun ep _ => sampleFailAttempt ep)).1
    ("Failed to authenticate: " ++ ("connect ECONNREFUSED" ++ " at " ++ "/oauth2/token"))
    sampleState (by decide)
